import Mathlib

set_option maxHeartbeats 1000000

/-!
A shallow embedding of `youtube-playlist-downloader.py` (class
`PlaylistDownloader` plus `main`).

Modelling conventions:
* Python strings are `List Char` (`Str`); `"lit".data` injects a literal.
* The local filesystem is `FS`: a map from paths to optional file
  contents together with the list of directories created by
  `os.makedirs`.
* The external collaborators are oracles supplied as parameters:
  `yt_dlp`'s `extract_info` calls are `Except PyExn _` values, and
  `ydl.download` is a `DlOracle` giving, per (url, option profile), the
  outcome of the call (success, `DownloadError` whose message does or
  does not contain "Video unavailable", or some other raised exception).
* Each `save_downloaded_video` call (open in append mode, one buffered
  write of `id + "\n"`, close) is modelled as one atomic append to the
  ledger file; concurrent workers are modelled as an arbitrary
  interleaving, i.e. an arbitrary order, of these atomic calls.
* The `schedule` library (one registered job) is modelled by `Sched`:
  `do` records `next_run := registration time + period`, `run_pending`
  runs the job in the calling thread when `next_run ≤ now` and then sets
  `next_run := completion time + period`, and the main loop alternates
  `run_pending` with `time.sleep(3600)`.
-/

abbrev Str : Type := List Char

/-- Python's `str.strip()` default whitespace: the code points for
which CPython's `Py_UNICODE_ISSPACE` holds — U+0009–U+000D,
U+001C–U+0020, U+0085, U+00A0, U+1680, U+2000–U+200A, U+2028, U+2029,
U+202F, U+205F, U+3000. -/
def isPyWS (c : Char) : Bool :=
  (9 ≤ c.toNat && c.toNat ≤ 13) || (28 ≤ c.toNat && c.toNat ≤ 32) ||
  c.toNat == 133 || c.toNat == 160 || c.toNat == 5760 ||
  (8192 ≤ c.toNat && c.toNat ≤ 8202) || c.toNat == 8232 || c.toNat == 8233 ||
  c.toNat == 8239 || c.toNat == 8287 || c.toNat == 12288

/-- Python's `line.strip()` on one line. -/
def stripChars (s : Str) : Str :=
  ((s.dropWhile isPyWS).reverse.dropWhile isPyWS).reverse

/-- Splits an already newline-translated character stream at `'\n'`,
yielding the lines without their terminator (a final line without a
newline is still yielded; an empty stream yields nothing). -/
def splitNL : Str → List Str
  | [] => []
  | c :: cs =>
    if c = '\n' then [] :: splitNL cs
    else
      match splitNL cs with
      | [] => [[c]]
      | l :: ls => (c :: l) :: ls

/-- The universal-newline translation Python's text mode applies when
reading: each `"\r\n"` and each lone `"\r"` becomes `"\n"`. -/
def nlTranslate : Str → Str
  | [] => []
  | [c] => if c = '\r' then ['\n'] else [c]
  | c :: c' :: cs =>
    if c = '\r' then
      if c' = '\n' then '\n' :: nlTranslate cs
      else '\n' :: nlTranslate (c' :: cs)
    else c :: nlTranslate (c' :: cs)

/-- Iterating over an open text-mode file in Python yields its lines:
universal-newline translation, then a split at `'\n'`; this returns
those lines without their trailing newline. -/
def pythonLines (s : Str) : List Str := splitNL (nlTranslate s)

/-- `os.path.join` for two POSIX path components, as used by the source. -/
def joinPath (a b : Str) : Str :=
  if b.head? = some '/' then b
  else if a = [] then b
  else if a.getLast? = some '/' then a ++ b
  else a ++ '/' :: b

/-- The local filesystem: file contents per path, plus the directories
created so far (`os.makedirs` targets, newest first). -/
structure FS where
  files : Str → Option Str
  dirs : List Str

def emptyFS : FS := { files := fun _ => none, dirs := [] }

/-- `os.makedirs(d, exist_ok=True)`. -/
def makeDirs (fs : FS) (d : Str) : FS := { fs with dirs := d :: fs.dirs }

/-- The per-playlist ledger path `os.path.join(playlist_path, 'downloaded_videos.txt')`. -/
def ledgerFile (ppath : Str) : Str := joinPath ppath ("downloaded_videos.txt".data)

/-- `PlaylistDownloader.load_downloaded_videos`: if the ledger file
exists, the set of its stripped lines, else the empty set. -/
def load_downloaded_videos (fs : FS) (ppath : Str) : Finset Str :=
  match fs.files (ledgerFile ppath) with
  | none => ∅
  | some c => ((pythonLines c).map stripChars).toFinset

/-- `PlaylistDownloader.save_downloaded_video`: append `f"{video_id}\n"`
to the ledger file (creating it when absent).  One call is one atomic
append. -/
def save_downloaded_video (fs : FS) (ppath vid : Str) : FS :=
  { fs with
    files := fun p =>
      if p = ledgerFile ppath then
        some (((fs.files (ledgerFile ppath)).getD []) ++ vid ++ ['\n'])
      else fs.files p }

/-- A sequence of `save_downloaded_video` calls on the same playlist
directory, in the given order. -/
def recordAll (fs : FS) (ppath : Str) (ids : List Str) : FS :=
  ids.foldl (fun f i => save_downloaded_video f ppath i) fs

/-- The file content produced by appending `id + "\n"` for each id in
order to an initially empty file. -/
def lineBlock (ids : List Str) : Str :=
  ids.foldr (fun i acc => i ++ '\n' :: acc) []

/-- One entry of `playlist_dict['entries']`: the fields of the `video`
dict that the source reads. -/
structure Video where
  id : Str
  title : Str
  original_url : Str
deriving DecidableEq

inductive Variant where
  | video
  | audio
deriving DecidableEq

/-- Outcome of one `ydl.download([url])` call under one option profile:
normal return, a raised `yt_dlp.utils.DownloadError` whose message does
(`unavailable = true`) or does not contain "Video unavailable", or any
other raised exception. -/
inductive DlOutcome where
  | ok
  | dlErr (unavailable : Bool)
  | exn
deriving DecidableEq

abbrev DlOracle : Type := Str → Variant → DlOutcome

/-- Per-(item, variant) outcome, following the spec's `DownloadResult`
taxonomy; the source's `True` return corresponds to `success`, `False`
to the other three constructors. -/
inductive DownloadResult where
  | success
  | skippedAlreadyDone
  | skippedUnavailable
  | failed
deriving DecidableEq

/-- `PlaylistDownloader.download_video`: skip when the id is in the
snapshot; otherwise call the collaborator and, only on normal return,
append the id to the ledger.  Every raised exception is caught by the
two `except` clauses, so the function always returns. -/
def download_video (odl : DlOracle) (v : Video) (var : Variant) (ppath : Str)
    (snap : Finset Str) (fs : FS) : FS × DownloadResult :=
  if v.id ∈ snap then (fs, DownloadResult.skippedAlreadyDone)
  else
    match odl v.original_url var with
    | DlOutcome.ok => (save_downloaded_video fs ppath v.id, DownloadResult.success)
    | DlOutcome.dlErr true => (fs, DownloadResult.skippedUnavailable)
    | DlOutcome.dlErr false => (fs, DownloadResult.failed)
    | DlOutcome.exn => (fs, DownloadResult.failed)

/-- The result component of `download_video`, which depends only on the
snapshot and the collaborator outcome (never on the filesystem). -/
def unitResult (odl : DlOracle) (snap : Finset Str) (u : Video × Variant) : DownloadResult :=
  if u.1.id ∈ snap then DownloadResult.skippedAlreadyDone
  else
    match odl u.1.original_url u.2 with
    | DlOutcome.ok => DownloadResult.success
    | DlOutcome.dlErr true => DownloadResult.skippedUnavailable
    | DlOutcome.dlErr false => DownloadResult.failed
    | DlOutcome.exn => DownloadResult.failed

/-- Execution of the submitted work units: every submitted future is
run to completion and its result collected (`as_completed` +
`future.result()`); the ledger snapshot is fixed for the whole pass. -/
def runUnits (odl : DlOracle) (ppath : Str) (snap : Finset Str) :
    List (Video × Variant) → FS → FS × List DownloadResult
  | [], fs => (fs, [])
  | u :: us, fs =>
    let r := download_video odl u.1 u.2 ppath snap fs
    let rest := runUnits odl ppath snap us r.1
    (rest.1, r.2 :: rest.2)

/-- The work units submitted for one playlist: one video-variant future
per non-null entry, then one audio-variant future per non-null entry. -/
def unitsOf (es : List (Option Video)) : List (Video × Variant) :=
  (es.filterMap id).map (fun v => (v, Variant.video))
    ++ (es.filterMap id).map (fun v => (v, Variant.audio))

/-- An exception raised by an `extract_info` call (opaque). -/
inductive PyExn where
  | err
deriving DecidableEq

/-- The dict returned by `extract_info(playlist_url)`: `entries?` is
`none` when `'entries' not in playlist_dict`. -/
structure PlaylistInfo where
  entries? : Option (List (Option Video))

/-- The `try` block of `download_playlist`: list the playlist (which may
raise), return early when `'entries'` is missing, else run all work
units.  No exception from a work unit reaches this level because
`download_video` catches everything. -/
def download_playlist_try (lo : Except PyExn PlaylistInfo) (odl : DlOracle)
    (ppath : Str) (snap : Finset Str) (fs : FS) :
    Except PyExn (FS × List DownloadResult) :=
  match lo with
  | Except.error e => Except.error e
  | Except.ok info =>
    match info.entries? with
    | none => Except.ok (fs, [])
    | some es => Except.ok (runUnits odl ppath snap (unitsOf es) fs)

/-- The two `os.makedirs` calls of `download_playlist`:
`{downloadRoot}/{title}/video` and `{downloadRoot}/{title}/audio`, with
the raw title as path component. -/
def mkPlaylistDirs (fs : FS) (dp title : Str) : FS :=
  makeDirs (makeDirs fs (joinPath (joinPath dp title) ("video".data)))
    (joinPath (joinPath dp title) ("audio".data))

/-- `PlaylistDownloader.download_playlist`: build the playlist path from
the raw title, create the `video` and `audio` directories, load the
ledger snapshot once, then run the guarded `try` block; its `except`
clause turns any escaped exception into a logged no-op. -/
def download_playlist (lo : Except PyExn PlaylistInfo) (odl : DlOracle)
    (dp title : Str) (fs : FS) : FS × List DownloadResult :=
  let ppath := joinPath dp title
  let fs1 := mkPlaylistDirs fs dp title
  let snap := load_downloaded_videos fs1 ppath
  match download_playlist_try lo odl ppath snap fs1 with
  | Except.ok r => r
  | Except.error _ => (fs1, [])

/-- The dict returned by `extract_info(channel_url)`: `id?` is `none`
when `'id' not in channel_info`. -/
structure ChannelInfo where
  id? : Option Str

/-- The body of `get_channel_id`'s `try` block: propagate the raised
exception, else look up `'id'`. -/
def get_channel_id_try (resolve : Except PyExn ChannelInfo) : Except PyExn (Option Str) :=
  match resolve with
  | Except.error e => Except.error e
  | Except.ok info =>
    match info.id? with
    | some i => Except.ok (some i)
    | none => Except.ok none

/-- `PlaylistDownloader.get_channel_id`: every failure path (raised
exception, missing `'id'`) is caught or handled and yields `None`. -/
def get_channel_id (resolve : Except PyExn ChannelInfo) : Option Str :=
  match get_channel_id_try resolve with
  | Except.ok r => r
  | Except.error _ => none

structure PlaylistDownloader where
  channel_url : Str
  download_path : Str
  max_workers : Nat
  channel_id : Option Str
deriving DecidableEq

/-- `PlaylistDownloader.__init__`: stores the arguments and the result
of `get_channel_id`; it has no failure path of its own. -/
def mkDownloader (resolve : Except PyExn ChannelInfo) (url dp : Str) (mw : Nat) :
    PlaylistDownloader :=
  { channel_url := url, download_path := dp, max_workers := mw,
    channel_id := get_channel_id resolve }

/-- The construction step of `main`, with a process exit code on the
error side.  The constructor never raises (every failure inside
`get_channel_id` is caught and becomes `channel_id = None`), so this
always returns `ok` and never touches the filesystem. -/
def startupResult (resolve : Except PyExn ChannelInfo) (url dp : Str) (mw : Nat)
    (fs : FS) : Except Nat (PlaylistDownloader × FS) :=
  Except.ok (mkDownloader resolve url dp mw, fs)

/-- One entry of the channel's playlists listing; `typ` is the `_type`
field. -/
structure PlaylistEntry where
  url : Str
  title : Str
  typ : Str
deriving DecidableEq

/-- The dict returned by `extract_info` on the playlists page. -/
structure EnumInfo where
  entries? : Option (List PlaylistEntry)

/-- Python `str(x)` for `x` an optional string: `None` prints as "None"
inside the f-string that builds the playlists URL. -/
def pyStrOfOpt : Option Str → Str
  | some s => s
  | none => "None".data

/-- The URL `f"https://www.youtube.com/{self.channel_id}/playlists"`. -/
def playlistsUrlOf (cid : Option Str) : Str :=
  ("https://www.youtube.com/".data) ++ pyStrOfOpt cid ++ ("/playlists".data)

/-- `PlaylistDownloader.get_channel_playlists`: one `extract_info`
query against the playlists URL; on success keep only entries whose
`_type` is `'url'`; every failure path yields `[]`.  Also returns the
list of URLs queried (always exactly one). -/
def get_channel_playlists (enum : Str → Except PyExn EnumInfo) (cid : Option Str) :
    List PlaylistEntry × List Str :=
  let url := playlistsUrlOf cid
  match enum url with
  | Except.error _ => ([], [url])
  | Except.ok info =>
    match info.entries? with
    | none => ([], [url])
    | some es => (es.filter (fun e => e.typ == ("url".data)), [url])

/-- `PlaylistDownloader.download_all_playlists`: enumerate playlists,
return when there are none, else process each in order. -/
def download_all_playlists (enum : Str → Except PyExn EnumInfo)
    (lo : Str → Except PyExn PlaylistInfo) (odl : DlOracle)
    (pd : PlaylistDownloader) (fs : FS) : FS × List (List DownloadResult) :=
  let pls := (get_channel_playlists enum pd.channel_id).1
  if pls.isEmpty then (fs, [])
  else
    pls.foldl (fun acc pl =>
      let r := download_playlist (lo pl.url) odl pd.download_path pl.title acc.1
      (r.1, acc.2 ++ [r.2])) (fs, [])

/-- State of `main`'s scheduling loop: current time in seconds, the
single job's `next_run`, and the completed passes, newest first, as
(start, finish) pairs. -/
structure Sched where
  now : Nat
  nextRun : Nat
  passes : List (Nat × Nat)

/-- One iteration of `while True: schedule.run_pending(); time.sleep(3600)`.
`run_pending` runs the job synchronously in this thread when
`next_run ≤ now`; the `schedule` library then sets `next_run` to the
completion time plus the period.  `d k` is the duration of the k-th
pass. -/
def loopStep (P : Nat) (d : Nat → Nat) (s : Sched) : Sched :=
  if s.nextRun ≤ s.now then
    { now := s.now + d s.passes.length + 3600,
      nextRun := s.now + d s.passes.length + P,
      passes := (s.now, s.now + d s.passes.length) :: s.passes }
  else
    { s with now := s.now + 3600 }

/-- `main` up to entering the loop: `job()` runs immediately at time 0,
then `schedule.every(period).hours.do(job)` registers the job with
`next_run` equal to the registration time plus the period. -/
def startSched (P : Nat) (d : Nat → Nat) : Sched :=
  { now := d 0, nextRun := d 0 + P, passes := [(0, d 0)] }

/-- The scheduling loop of `main` after `n` iterations, for a period of
`period` hours. -/
def mainSched (period : Nat) (d : Nat → Nat) : Nat → Sched
  | 0 => startSched (period * 3600) d
  | n + 1 => loopStep (period * 3600) d (mainSched period d n)

/-- `m` further loop iterations from an arbitrary state. -/
def stepN (P : Nat) (d : Nat → Nat) : Nat → Sched → Sched
  | 0, s => s
  | n + 1, s => stepN P d n (loopStep P d s)

/-- Invariant of the loop state used for the ordering properties: the
pass list is nonempty, `nextRun` is the last finish time plus the
period, time has not gone backwards, finish times are bounded by the
last finish, every pass interval is well-formed, every newer pass
starts at least `P` after every older pass finishes, and the oldest
pass is the immediate one at time 0. -/
def goodStack (P : Nat) (d0 : Nat) (s : Sched) : Prop :=
  (∃ st fin rest, s.passes = (st, fin) :: rest ∧
      s.nextRun = fin + P ∧ fin ≤ s.now ∧
      (∀ pr ∈ s.passes, pr.1 ≤ pr.2 ∧ pr.2 ≤ fin)) ∧
  s.passes.Pairwise (fun a b => b.2 + P ≤ a.1) ∧
  s.passes.getLast? = some (0, d0)

/-- Invariant used for progress: `nextRun` is at most `period` hours
away, measured on the 3600-second sleep grid. -/
def timerOK (period : Nat) (s : Sched) : Prop :=
  ∃ j ≤ period, s.nextRun + j * 3600 = s.now + period * 3600

/-! Helper lemmas about the ledger file model. -/

lemma save_files_at (fs : FS) (ppath vid : Str) :
    (save_downloaded_video fs ppath vid).files (ledgerFile ppath)
      = some (((fs.files (ledgerFile ppath)).getD []) ++ vid ++ ['\n']) := by
  simp [save_downloaded_video]

lemma save_dirs (fs : FS) (ppath vid : Str) :
    (save_downloaded_video fs ppath vid).dirs = fs.dirs := rfl

lemma makeDirs_files (fs : FS) (d : Str) : (makeDirs fs d).files = fs.files := rfl

lemma load_makeDirs (fs : FS) (d ppath : Str) :
    load_downloaded_videos (makeDirs fs d) ppath = load_downloaded_videos fs ppath := rfl

lemma load_of_some (fs : FS) (ppath c : Str) (h : fs.files (ledgerFile ppath) = some c) :
    load_downloaded_videos fs ppath = ((pythonLines c).map stripChars).toFinset := by
  simp [load_downloaded_videos, h]

lemma load_of_none (fs : FS) (ppath : Str) (h : fs.files (ledgerFile ppath) = none) :
    load_downloaded_videos fs ppath = ∅ := by
  simp [load_downloaded_videos, h]

lemma splitNL_block (i : Str) (rest : Str) (h : '\n' ∉ i) :
    splitNL (i ++ '\n' :: rest) = i :: splitNL rest := by
  induction i with
  | nil => simp [splitNL]
  | cons c cs ih =>
    have hc : ¬ c = '\n' := fun hc => h (hc ▸ List.mem_cons_self c cs)
    have hcs : '\n' ∉ cs := fun hm => h (List.mem_cons_of_mem c hm)
    simp [splitNL, hc, ih hcs]

lemma lineBlock_cons (i : Str) (is : List Str) :
    lineBlock (i :: is) = i ++ '\n' :: lineBlock is := rfl

lemma splitNL_lineBlock (ids : List Str) (h : ∀ i ∈ ids, '\n' ∉ i) :
    splitNL (lineBlock ids) = ids := by
  induction ids with
  | nil => rfl
  | cons i is ih =>
    rw [lineBlock_cons, splitNL_block i _ (h i (List.mem_cons_self i is)),
      ih (fun j hj => h j (List.mem_cons_of_mem i hj))]

lemma nlTranslate_cons_ne (c : Char) (hc : ¬ c = '\r') (cs : Str) :
    nlTranslate (c :: cs) = c :: nlTranslate cs := by
  cases cs with
  | nil => simp [nlTranslate, hc]
  | cons c' cs' => simp [nlTranslate, hc]

lemma nlTranslate_no_cr (s : Str) (h : '\r' ∉ s) : nlTranslate s = s := by
  induction s with
  | nil => rfl
  | cons c cs ih =>
    have hc : ¬ c = '\r' := fun hcc => h (hcc ▸ List.mem_cons_self c cs)
    rw [nlTranslate_cons_ne c hc cs, ih (fun hm => h (List.mem_cons_of_mem c hm))]

lemma lineBlock_no_cr (ids : List Str) (h : ∀ i ∈ ids, '\r' ∉ i) :
    '\r' ∉ lineBlock ids := by
  induction ids with
  | nil => simp [lineBlock]
  | cons i is ih =>
    rw [lineBlock_cons]
    intro hm
    rcases List.mem_append.mp hm with hm1 | hm2
    · exact h i (List.mem_cons_self i is) hm1
    · rcases List.mem_cons.mp hm2 with hEq | hm3
      · exact absurd hEq (by decide)
      · exact ih (fun j hj => h j (List.mem_cons_of_mem i hj)) hm3

lemma pythonLines_lineBlock (ids : List Str)
    (h : ∀ i ∈ ids, '\n' ∉ i ∧ '\r' ∉ i) :
    pythonLines (lineBlock ids) = ids := by
  unfold pythonLines
  rw [nlTranslate_no_cr _ (lineBlock_no_cr ids (fun i hi => (h i hi).2)),
    splitNL_lineBlock ids (fun i hi => (h i hi).1)]

lemma recordAll_cons (fs : FS) (ppath i : Str) (is : List Str) :
    recordAll fs ppath (i :: is) = recordAll (save_downloaded_video fs ppath i) ppath is := rfl

lemma recordAll_some (ids : List Str) : ∀ (fs : FS) (ppath c : Str),
    fs.files (ledgerFile ppath) = some c →
    (recordAll fs ppath ids).files (ledgerFile ppath) = some (c ++ lineBlock ids) := by
  induction ids with
  | nil =>
    intro fs ppath c h
    simpa [recordAll, lineBlock] using h
  | cons i is ih =>
    intro fs ppath c h
    have h1 : (save_downloaded_video fs ppath i).files (ledgerFile ppath)
        = some (c ++ i ++ ['\n']) := by rw [save_files_at, h]; rfl
    rw [recordAll_cons, ih _ _ _ h1, lineBlock_cons]
    simp [List.append_assoc]

lemma recordAll_fresh (ids : List Str) (fs : FS) (ppath : Str)
    (h : fs.files (ledgerFile ppath) = none) (hne : ids ≠ []) :
    (recordAll fs ppath ids).files (ledgerFile ppath) = some (lineBlock ids) := by
  cases ids with
  | nil => exact absurd rfl hne
  | cons i is =>
    have h1 : (save_downloaded_video fs ppath i).files (ledgerFile ppath)
        = some (i ++ ['\n']) := by rw [save_files_at, h]; rfl
    rw [recordAll_cons, recordAll_some is _ _ _ h1, lineBlock_cons]
    simp

lemma recordAll_dirs (ids : List Str) : ∀ (fs : FS) (ppath : Str),
    (recordAll fs ppath ids).dirs = fs.dirs := by
  induction ids with
  | nil => intro fs ppath; rfl
  | cons i is ih => intro fs ppath; rw [recordAll_cons, ih, save_dirs]

lemma load_recordAll_fresh (ids : List Str) (fs : FS) (ppath : Str)
    (h : fs.files (ledgerFile ppath) = none)
    (hwf : ∀ i ∈ ids, '\n' ∉ i ∧ '\r' ∉ i ∧ stripChars i = i) :
    load_downloaded_videos (recordAll fs ppath ids) ppath = ids.toFinset := by
  cases hids : ids with
  | nil => simp [recordAll, load_of_none fs ppath h]
  | cons i is =>
    rw [← hids]
    have hne : ids ≠ [] := by rw [hids]; exact List.cons_ne_nil i is
    rw [load_of_some _ _ _ (recordAll_fresh ids fs ppath h hne),
      pythonLines_lineBlock ids (fun j hj => ⟨(hwf j hj).1, (hwf j hj).2.1⟩)]
    congr 1
    calc ids.map stripChars = ids.map id := List.map_congr_left (fun j hj => (hwf j hj).2.2)
      _ = ids := List.map_id ids

/-! Helper lemmas about one fetch and about the worker pool. -/

lemma download_video_fst (odl : DlOracle) (v : Video) (var : Variant) (ppath : Str)
    (snap : Finset Str) (fs : FS) :
    (download_video odl v var ppath snap fs).1
      = if v.id ∉ snap ∧ odl v.original_url var = DlOutcome.ok
        then save_downloaded_video fs ppath v.id else fs := by
  unfold download_video
  by_cases h : v.id ∈ snap
  · simp [h]
  · cases hod : odl v.original_url var with
    | ok => simp [h, hod]
    | dlErr b => cases b <;> simp [h, hod]
    | exn => simp [h, hod]

lemma download_video_snd (odl : DlOracle) (v : Video) (var : Variant) (ppath : Str)
    (snap : Finset Str) (fs : FS) :
    (download_video odl v var ppath snap fs).2 = unitResult odl snap (v, var) := by
  unfold download_video unitResult
  by_cases h : v.id ∈ snap
  · simp [h]
  · cases hod : odl v.original_url var with
    | ok => simp [h, hod]
    | dlErr b => cases b <;> simp [h, hod]
    | exn => simp [h, hod]

lemma download_video_dirs (odl : DlOracle) (v : Video) (var : Variant) (ppath : Str)
    (snap : Finset Str) (fs : FS) :
    ((download_video odl v var ppath snap fs).1).dirs = fs.dirs := by
  rw [download_video_fst]
  by_cases h : v.id ∉ snap ∧ odl v.original_url var = DlOutcome.ok <;> simp [h, save_dirs]

lemma runUnits_cons (odl : DlOracle) (ppath : Str) (snap : Finset Str)
    (u : Video × Variant) (us : List (Video × Variant)) (fs : FS) :
    runUnits odl ppath snap (u :: us) fs
      = ((runUnits odl ppath snap us (download_video odl u.1 u.2 ppath snap fs).1).1,
         (download_video odl u.1 u.2 ppath snap fs).2
           :: (runUnits odl ppath snap us (download_video odl u.1 u.2 ppath snap fs).1).2) := rfl

lemma runUnits_snd (odl : DlOracle) (ppath : Str) (snap : Finset Str) :
    ∀ (us : List (Video × Variant)) (fs : FS),
    (runUnits odl ppath snap us fs).2 = us.map (unitResult odl snap) := by
  intro us
  induction us with
  | nil => intro fs; rfl
  | cons u us ih =>
    intro fs
    rw [runUnits_cons, List.map_cons]
    exact congrArg₂ _ (download_video_snd odl u.1 u.2 ppath snap fs) (ih _)

lemma runUnits_dirs (odl : DlOracle) (ppath : Str) (snap : Finset Str) :
    ∀ (us : List (Video × Variant)) (fs : FS),
    ((runUnits odl ppath snap us fs).1).dirs = fs.dirs := by
  intro us
  induction us with
  | nil => intro fs; rfl
  | cons u us ih =>
    intro fs
    rw [runUnits_cons]
    exact (ih _).trans (download_video_dirs odl u.1 u.2 ppath snap fs)

lemma runUnits_all_skip (odl : DlOracle) (ppath : Str) (snap : Finset Str) :
    ∀ (us : List (Video × Variant)) (fs : FS), (∀ u ∈ us, u.1.id ∈ snap) →
    runUnits odl ppath snap us fs
      = (fs, us.map (fun _ => DownloadResult.skippedAlreadyDone)) := by
  intro us
  induction us with
  | nil => intro fs _; rfl
  | cons u us ih =>
    intro fs h
    have hu : u.1.id ∈ snap := h u (List.mem_cons_self u us)
    have hdv : download_video odl u.1 u.2 ppath snap fs
        = (fs, DownloadResult.skippedAlreadyDone) := by
      unfold download_video; simp [hu]
    rw [runUnits_cons, hdv]
    simp [ih fs (fun w hw => h w (List.mem_cons_of_mem u hw))]

lemma runUnits_all_ok (odl : DlOracle) (ppath : Str) :
    ∀ (us : List (Video × Variant)) (fs : FS),
    (∀ u ∈ us, odl u.1.original_url u.2 = DlOutcome.ok) →
    runUnits odl ppath (∅ : Finset Str) us fs
      = (recordAll fs ppath (us.map (fun u => u.1.id)),
         us.map (fun _ => DownloadResult.success)) := by
  intro us
  induction us with
  | nil => intro fs _; rfl
  | cons u us ih =>
    intro fs h
    have hok : odl u.1.original_url u.2 = DlOutcome.ok := h u (List.mem_cons_self u us)
    have hdv : download_video odl u.1 u.2 ppath (∅ : Finset Str) fs
        = (save_downloaded_video fs ppath u.1.id, DownloadResult.success) := by
      unfold download_video; simp [hok]
    rw [runUnits_cons, hdv]
    simp [ih _ (fun w hw => h w (List.mem_cons_of_mem u hw)), recordAll_cons]

lemma unitsOf_length (es : List (Option Video)) :
    (unitsOf es).length = 2 * (es.filterMap id).length := by
  simp [unitsOf, Nat.two_mul]

lemma mem_unitsOf_fst {es : List (Option Video)} {u : Video × Variant}
    (h : u ∈ unitsOf es) : u.1 ∈ es.filterMap id := by
  rcases List.mem_append.mp h with h' | h' <;>
    · rcases List.mem_map.mp h' with ⟨v, hv, rfl⟩
      exact hv

lemma unitsOf_nil_of_no_items {es : List (Option Video)}
    (h : es.filterMap id = []) : unitsOf es = [] := by
  simp [unitsOf, h]

/-! Helper lemmas about the scheduling loop. -/

lemma goodStack_start (P : Nat) (d : Nat → Nat) :
    goodStack P (d 0) (startSched P d) := by
  refine ⟨⟨0, d 0, [], rfl, rfl, Nat.le_refl _, ?_⟩, ?_, rfl⟩
  · intro pr hpr
    rcases List.mem_singleton.mp hpr with rfl
    exact ⟨Nat.zero_le _, Nat.le_refl _⟩
  · exact List.pairwise_singleton _ _

lemma goodStack_step (P : Nat) (d : Nat → Nat) (s : Sched)
    (h : goodStack P (d 0) s) : goodStack P (d 0) (loopStep P d s) := by
  obtain ⟨⟨st, fin, rest, hp, hnr, hfn, hall⟩, hpw, hlast⟩ := h
  by_cases hfire : s.nextRun ≤ s.now
  · have hbound : ∀ pr ∈ s.passes, pr.2 + P ≤ s.now := by
      intro pr hpr
      have h2 : pr.2 ≤ fin := (hall pr hpr).2
      calc pr.2 + P ≤ fin + P := Nat.add_le_add_right h2 P
        _ = s.nextRun := hnr.symm
        _ ≤ s.now := hfire
    refine ⟨⟨s.now, s.now + d s.passes.length, s.passes, ?_, ?_, ?_, ?_⟩, ?_, ?_⟩
    · simp [loopStep, hfire]
    · simp [loopStep, hfire]
    · simp [loopStep, hfire]
    · intro pr hpr
      have hmem : pr ∈ (s.now, s.now + d s.passes.length) :: s.passes := by
        simpa [loopStep, hfire] using hpr
      rcases List.mem_cons.mp hmem with rfl | hold
      · exact ⟨Nat.le_add_right _ _, Nat.le_refl _⟩
      · have h1 := (hall pr hold).1
        have h2 : pr.2 ≤ fin := (hall pr hold).2
        exact ⟨h1, le_trans h2 (le_trans hfn (Nat.le_add_right _ _))⟩
    · have : (loopStep P d s).passes = (s.now, s.now + d s.passes.length) :: s.passes := by
        simp [loopStep, hfire]
      rw [this, List.pairwise_cons]
      exact ⟨hbound, hpw⟩
    · have hne : s.passes ≠ [] := by rw [hp]; exact List.cons_ne_nil _ _
      have : (loopStep P d s).passes = (s.now, s.now + d s.passes.length) :: s.passes := by
        simp [loopStep, hfire]
      rw [this, List.getLast?_cons, hlast]
      cases hps : s.passes with
      | nil => exact absurd hps hne
      | cons a l => simp [List.getLast?_cons]
  · refine ⟨⟨st, fin, rest, ?_, ?_, ?_, ?_⟩, ?_, ?_⟩ <;>
      simp only [loopStep, hfire, if_false]
    · exact hp
    · exact hnr
    · exact le_trans hfn (Nat.le_add_right _ _)
    · exact hall
    · exact hpw
    · exact hlast

lemma goodStack_reach (period : Nat) (d : Nat → Nat) :
    ∀ n, goodStack (period * 3600) (d 0) (mainSched period d n) := by
  intro n
  induction n with
  | zero => exact goodStack_start _ d
  | succ n ih => exact goodStack_step _ d _ ih

lemma timerOK_start (period : Nat) (d : Nat → Nat) :
    timerOK period (startSched (period * 3600) d) := by
  exact ⟨0, Nat.zero_le _, by simp [startSched]⟩

lemma timerOK_step (period : Nat) (d : Nat → Nat) (s : Sched) (hp : 1 ≤ period)
    (h : timerOK period s) : timerOK period (loopStep (period * 3600) d s) := by
  obtain ⟨j, hj, heq⟩ := h
  by_cases hfire : s.nextRun ≤ s.now
  · refine ⟨1, hp, ?_⟩
    simp only [loopStep, hfire, if_true]
    omega
  · have hlt : s.now < s.nextRun := Nat.lt_of_not_le hfire
    have hjlt : j < period := by omega
    refine ⟨j + 1, hjlt, ?_⟩
    simp only [loopStep, hfire, if_false]
    omega

lemma timerOK_reach (period : Nat) (d : Nat → Nat) (hp : 1 ≤ period) :
    ∀ n, timerOK period (mainSched period d n) := by
  intro n
  induction n with
  | zero => exact timerOK_start period d
  | succ n ih => exact timerOK_step period d _ hp ih

lemma stepN_succ_outer (P : Nat) (d : Nat → Nat) :
    ∀ (m : Nat) (s : Sched), stepN P d (m + 1) s = loopStep P d (stepN P d m s) := by
  intro m
  induction m with
  | zero => intro s; rfl
  | succ m ih => intro s; exact ih (loopStep P d s)

lemma mainSched_add (period : Nat) (d : Nat → Nat) (n : Nat) :
    ∀ m, mainSched period d (n + m) = stepN (period * 3600) d m (mainSched period d n) := by
  intro m
  induction m with
  | zero => rfl
  | succ m ih =>
    show loopStep _ d (mainSched period d (n + m)) = _
    rw [ih, stepN_succ_outer]

lemma passes_len_step (P : Nat) (d : Nat → Nat) (s : Sched) :
    s.passes.length ≤ (loopStep P d s).passes.length := by
  by_cases hfire : s.nextRun ≤ s.now <;> simp [loopStep, hfire]

lemma passes_len_stepN (P : Nat) (d : Nat → Nat) :
    ∀ (m : Nat) (s : Sched), s.passes.length ≤ (stepN P d m s).passes.length := by
  intro m
  induction m with
  | zero => intro s; exact Nat.le_refl _
  | succ m ih => intro s; exact le_trans (passes_len_step P d s) (ih _)

/-- From a state whose timer shows `m` grid steps left, the job fires
within `m + 1` further loop iterations. -/
lemma fires_in (period : Nat) (d : Nat → Nat) :
    ∀ (m : Nat) (s : Sched) (j : Nat), j + m = period →
    s.nextRun + j * 3600 = s.now + period * 3600 →
    s.passes.length + 1 ≤ (stepN (period * 3600) d (m + 1) s).passes.length := by
  intro m
  induction m with
  | zero =>
    intro s j hj heq
    have hfire : s.nextRun ≤ s.now := by omega
    show s.passes.length + 1
        ≤ (stepN (period * 3600) d 0 (loopStep (period * 3600) d s)).passes.length
    simp [stepN, loopStep, hfire]
  | succ m ih =>
    intro s j hj heq
    have hnf : ¬ s.nextRun ≤ s.now := by
      intro hle
      omega
    have hs' : loopStep (period * 3600) d s = { s with now := s.now + 3600 } := by
      simp [loopStep, hnf]
    show s.passes.length + 1
        ≤ (stepN (period * 3600) d (m + 1) (loopStep (period * 3600) d s)).passes.length
    rw [hs']
    exact ih { s with now := s.now + 3600 } (j + 1) (by omega) (by simp; omega)

/-- The pass count grows without bound: after `k * (period + 1)` loop
iterations at least `k + 1` passes have run. -/
lemma passes_unbounded (period : Nat) (d : Nat → Nat) (hp : 1 ≤ period) :
    ∀ k, k + 1 ≤ (mainSched period d (k * (period + 1))).passes.length := by
  intro k
  induction k with
  | zero => simp [mainSched, startSched]
  | succ k ih =>
    obtain ⟨j, hj, heq⟩ := timerOK_reach period d hp (k * (period + 1))
    have h1 := fires_in period d (period - j) (mainSched period d (k * (period + 1))) j
      (by omega) heq
    have hmul : (k + 1) * (period + 1) = k * (period + 1) + (period + 1) := Nat.succ_mul _ _
    have hidx : (k + 1) * (period + 1)
        = (k * (period + 1) + (period - j + 1)) + (period + 1 - (period - j + 1)) := by
      omega
    rw [hidx, mainSched_add period d (k * (period + 1) + (period - j + 1))
      (period + 1 - (period - j + 1))]
    refine le_trans ?_ (passes_len_stepN (period * 3600) d _ _)
    rw [mainSched_add period d (k * (period + 1)) (period - j + 1)]
    calc k + 1 + 1 ≤ (mainSched period d (k * (period + 1))).passes.length + 1 :=
          Nat.add_le_add_right ih 1
      _ ≤ _ := h1

/-! Claim theorems. -/

/-- Claim C1, counterexample: with a failing channel-resolution query,
construction of the downloader does NOT exit with a non-zero status —
`get_channel_id` catches the failure, returns `None`, and `__init__`
completes normally. -/
theorem startup_succeeds_on_failed_resolution :
    ¬ ∃ code : Nat, startupResult (Except.error PyExn.err) ("u".data) ("p".data) 4 emptyFS
        = Except.error code := by
  rintro ⟨code, h⟩
  exact Except.noConfusion h

/-- Claim C1 (amended): if channel-id resolution fails or yields no id,
construction still completes, with `channel_id = None`, the process
does not exit, and no directories are created at construction time; a
subsequent pass still issues exactly one playlist-enumeration query,
whose URL embeds the literal `None`, and when that query fails — or
succeeds but yields no playlist-typed entries — the pass performs no
download work and leaves the filesystem unchanged. -/
theorem failed_resolution_behavior (resolve : Except PyExn ChannelInfo) (url dp : Str)
    (mw : Nat) (fs : FS) (enum : Str → Except PyExn EnumInfo)
    (lo : Str → Except PyExn PlaylistInfo) (odl : DlOracle)
    (hres : get_channel_id resolve = none)
    (henum : enum (playlistsUrlOf none) = Except.error PyExn.err
      ∨ ∃ info : EnumInfo, enum (playlistsUrlOf none) = Except.ok info
          ∧ (info.entries?.getD []).filter (fun e => e.typ == ("url".data)) = []) :
    startupResult resolve url dp mw fs
      = Except.ok (PlaylistDownloader.mk url dp mw none, fs) ∧
    (get_channel_playlists enum (mkDownloader resolve url dp mw).channel_id).2
      = [playlistsUrlOf none] ∧
    download_all_playlists enum lo odl (mkDownloader resolve url dp mw) fs = (fs, []) := by
  have hmk : mkDownloader resolve url dp mw = PlaylistDownloader.mk url dp mw none := by
    simp [mkDownloader, hres]
  have hpls : get_channel_playlists enum none = ([], [playlistsUrlOf none]) := by
    rcases henum with h | ⟨info, hinfo, hfilt⟩
    · simp [get_channel_playlists, h]
    · cases info with
      | mk ents =>
        cases ents with
        | none => simp [get_channel_playlists, hinfo]
        | some es =>
          simp only [Option.getD_some] at hfilt
          simp [get_channel_playlists, hinfo, hfilt]
  refine ⟨?_, ?_, ?_⟩
  · rw [startupResult, hmk]
  · rw [hmk, show (PlaylistDownloader.mk url dp mw none).channel_id = none from rfl, hpls]
  · rw [hmk]
    simp [download_all_playlists, hpls]

/-- Witness for `failed_resolution_behavior` at concrete inputs. -/
theorem failed_resolution_behavior_witness :
    startupResult (Except.error PyExn.err) ("u".data) ("p".data) 4 emptyFS
      = Except.ok (PlaylistDownloader.mk ("u".data) ("p".data) 4 none, emptyFS) ∧
    (get_channel_playlists (fun _ => Except.error PyExn.err)
        (mkDownloader (Except.error PyExn.err) ("u".data) ("p".data) 4).channel_id).2
      = [playlistsUrlOf none] ∧
    download_all_playlists (fun _ => Except.error PyExn.err)
        (fun _ => Except.error PyExn.err) (fun _ _ => DlOutcome.ok)
        (mkDownloader (Except.error PyExn.err) ("u".data) ("p".data) 4) emptyFS
      = (emptyFS, []) :=
  failed_resolution_behavior (Except.error PyExn.err) ("u".data) ("p".data) 4 emptyFS
    (fun _ => Except.error PyExn.err) (fun _ => Except.error PyExn.err)
    (fun _ _ => DlOutcome.ok) rfl (Or.inl rfl)

/-- Claim C2: in one `download_video` call the ledger file gains exactly
the entry `id + "\n"` when the id is not in the snapshot and the
collaborator call returns without error, and is left unchanged on a
snapshot hit, an unavailable item, a download error, or any other
exception. -/
theorem ledger_append_iff_success (odl : DlOracle) (v : Video) (var : Variant)
    (ppath : Str) (snap : Finset Str) (fs : FS) :
    ((download_video odl v var ppath snap fs).1).files (ledgerFile ppath)
      = if v.id ∉ snap ∧ odl v.original_url var = DlOutcome.ok
        then some (((fs.files (ledgerFile ppath)).getD []) ++ v.id ++ ['\n'])
        else fs.files (ledgerFile ppath) := by
  rw [download_video_fst]
  by_cases h : v.id ∉ snap ∧ odl v.original_url var = DlOutcome.ok
  · simp [h, save_files_at]
  · simp [h]

/-- Claim C3: the scheduling loop of `main` runs one pass immediately at
time 0, pass intervals are well-formed and pairwise separated by at
least the period (so no two passes ever overlap and a late pass defers
the next invocation until after it finishes), and passes keep being
invoked forever (at least `k + 1` passes within `k * (period + 1)` loop
iterations). -/
theorem schedule_no_overlap (period : Nat) (d : Nat → Nat) (hp : 1 ≤ period) (n k : Nat) :
    (mainSched period d n).passes.getLast? = some (0, d 0) ∧
    (mainSched period d n).passes.Pairwise (fun a b => b.2 + period * 3600 ≤ a.1) ∧
    (∀ pr ∈ (mainSched period d n).passes, pr.1 ≤ pr.2) ∧
    k + 1 ≤ (mainSched period d (k * (period + 1))).passes.length := by
  obtain ⟨⟨st, fin, rest, hps, hnr, hfn, hall⟩, hpw, hlast⟩ := goodStack_reach period d n
  exact ⟨hlast, hpw, fun pr hpr => (hall pr hpr).1, passes_unbounded period d hp k⟩

/-- Witness for `schedule_no_overlap` at concrete inputs. -/
theorem schedule_no_overlap_witness :
    (mainSched 1 (fun _ => 0) 3).passes.getLast? = some (0, 0) ∧
    (mainSched 1 (fun _ => 0) 3).passes.Pairwise (fun a b => b.2 + 1 * 3600 ≤ a.1) ∧
    (∀ pr ∈ (mainSched 1 (fun _ => 0) 3).passes, pr.1 ≤ pr.2) ∧
    1 + 1 ≤ (mainSched 1 (fun _ => 0) (1 * (1 + 1))).passes.length :=
  schedule_no_overlap 1 (fun _ => 0) (Nat.le_refl 1) 3 1

/-- Claim C4, counterexample: one `save_downloaded_video` call for the
single id `"a\nb"` produces a ledger file with two lines, not exactly
one line per recorded id. -/
theorem recordDone_newline_id_two_lines :
    ((recordAll emptyFS ("p".data) [("a\nb".data)]).files (ledgerFile ("p".data))).map
        (fun c => (splitNL c).length) ≠ some 1 := by decide

/-- Claim C4 (amended): for M parallel `save_downloaded_video` calls
with M distinct newline-free ids on the same playlist directory — each
call one atomic append, parallelism modelled as an arbitrary order
`perm` of the calls — the resulting ledger file consists of exactly M
complete lines, namely the M ids, none truncated or interleaved. -/
theorem parallel_recordDone_lines (ids perm : List Str) (ppath : Str) (fs : FS)
    (h0 : fs.files (ledgerFile ppath) = none)
    (hperm : perm.Perm ids)
    (hnl : ∀ i ∈ ids, '\n' ∉ i)
    (hnd : ids.Nodup) (hne : ids ≠ []) :
    ∃ c, (recordAll fs ppath perm).files (ledgerFile ppath) = some c ∧
      (splitNL c).length = ids.length ∧ (splitNL c).Perm ids ∧ (splitNL c).Nodup := by
  have hpne : perm ≠ [] := by
    intro h
    rw [h] at hperm
    exact hne (List.Perm.nil_eq hperm).symm
  have hlines : splitNL (lineBlock perm) = perm :=
    splitNL_lineBlock perm (fun i hi => hnl i (hperm.mem_iff.mp hi))
  refine ⟨lineBlock perm, recordAll_fresh perm fs ppath h0 hpne, ?_, ?_, ?_⟩
  · rw [hlines]
    exact hperm.length_eq
  · rw [hlines]
    exact hperm
  · rw [hlines]
    exact hperm.nodup_iff.mpr hnd

/-- Witness for `parallel_recordDone_lines` at concrete inputs. -/
theorem parallel_recordDone_lines_witness :
    ∃ c, (recordAll emptyFS ("p".data) [("bb".data), ("a".data)]).files
        (ledgerFile ("p".data)) = some c ∧
      (splitNL c).length = ([("a".data), ("bb".data)] : List Str).length ∧
      (splitNL c).Perm [("a".data), ("bb".data)] ∧ (splitNL c).Nodup :=
  parallel_recordDone_lines [("a".data), ("bb".data)] [("bb".data), ("a".data)]
    ("p".data) emptyFS rfl (by decide) (by decide) (by decide) (by decide)

/-- Claim C5, counterexample: recording the id `" a"` and loading gives
the set containing the stripped string `"a"`, not the recorded id
`" a"` — `load` strips lines while `save` writes them raw. -/
theorem ledger_roundtrip_strip_cex :
    load_downloaded_videos (recordAll emptyFS ("p".data) [(" a".data)]) ("p".data)
      ≠ ([(" a".data)] : List Str).toFinset := by decide

/-- Claim C5 (amended): for every finite sequence of item ids that
contain no line terminator (neither LF nor CR) and are invariant under
Python stripping (no surrounding Python whitespace), duplicates
allowed, loading after recording them in order returns exactly the
deduplicated set of the recorded ids; and loading when no ledger file
exists returns the empty set rather than an error. -/
theorem ledger_roundtrip (ids : List Str) (ppath : Str) (fs : FS)
    (h0 : fs.files (ledgerFile ppath) = none)
    (hwf : ∀ i ∈ ids, '\n' ∉ i ∧ '\r' ∉ i ∧ stripChars i = i) :
    load_downloaded_videos (recordAll fs ppath ids) ppath = ids.toFinset ∧
    load_downloaded_videos fs ppath = ∅ :=
  ⟨load_recordAll_fresh ids fs ppath h0 hwf, load_of_none fs ppath h0⟩

/-- Witness for `ledger_roundtrip` at concrete inputs (with a
duplicate). -/
theorem ledger_roundtrip_witness :
    load_downloaded_videos (recordAll emptyFS ("p".data)
        [("ab".data), ("c".data), ("ab".data)]) ("p".data)
      = ([("ab".data), ("c".data), ("ab".data)] : List Str).toFinset ∧
    load_downloaded_videos emptyFS ("p".data) = ∅ :=
  ledger_roundtrip [("ab".data), ("c".data), ("ab".data)] ("p".data) emptyFS rfl
    (by decide)

/-! Helper lemmas about whole playlist passes. -/

lemma download_playlist_ok_eq (es : List (Option Video)) (odl : DlOracle)
    (dp title : Str) (fs : FS) :
    download_playlist (Except.ok (PlaylistInfo.mk (some es))) odl dp title fs
      = runUnits odl (joinPath dp title) (load_downloaded_videos fs (joinPath dp title))
          (unitsOf es) (mkPlaylistDirs fs dp title) := rfl

lemma mkPlaylistDirs_files (fs : FS) (dp title : Str) :
    (mkPlaylistDirs fs dp title).files = fs.files := rfl

lemma download_playlist_first_run (es : List (Option Video)) (odl : DlOracle)
    (dp title : Str) (fs0 : FS)
    (h0 : fs0.files (ledgerFile (joinPath dp title)) = none)
    (hok : ∀ u ∈ unitsOf es, odl u.1.original_url u.2 = DlOutcome.ok) :
    download_playlist (Except.ok (PlaylistInfo.mk (some es))) odl dp title fs0
      = (recordAll (mkPlaylistDirs fs0 dp title) (joinPath dp title)
          ((unitsOf es).map fun u => u.1.id),
         (unitsOf es).map fun _ => DownloadResult.success) := by
  rw [download_playlist_ok_eq, load_of_none fs0 _ h0]
  exact runUnits_all_ok odl _ (unitsOf es) _ hok

/-- Claim C6, counterexample: a playlist whose single item has id `" a"`
is fully downloaded on a first complete run, yet the second run over the
unchanged listing does not take the snapshot-hit branch for it (the
stripped ledger line `"a"` never matches the raw id `" a"`). -/
theorem second_pass_reattempts_cex :
    (download_playlist
        (Except.ok (PlaylistInfo.mk (some [some (Video.mk (" a".data) ("T".data) ("u".data))])))
        (fun _ _ => DlOutcome.ok) ("d".data) ("t".data)
        (download_playlist
          (Except.ok (PlaylistInfo.mk (some [some (Video.mk (" a".data) ("T".data) ("u".data))])))
          (fun _ _ => DlOutcome.ok) ("d".data) ("t".data) emptyFS).1).2
      ≠ [DownloadResult.skippedAlreadyDone, DownloadResult.skippedAlreadyDone] := by decide

/-- Claim C6 (amended): for a playlist whose item ids contain no line
terminator (neither LF nor CR) and no surrounding Python whitespace,
starting from no ledger file, after a first run in which every
collaborator call succeeds, a second run over the unchanged listing
takes the snapshot-hit branch for every (item, variant) work unit: all
2N results are `Skipped(AlreadyDone)` and the ledger file is
unchanged. -/
theorem second_pass_all_skipped (es : List (Option Video)) (dp title : Str) (fs0 : FS)
    (odl : DlOracle)
    (h0 : fs0.files (ledgerFile (joinPath dp title)) = none)
    (hwf : ∀ v ∈ es.filterMap id, '\n' ∉ v.id ∧ '\r' ∉ v.id ∧ stripChars v.id = v.id)
    (hok : ∀ v ∈ es.filterMap id, ∀ var : Variant, odl v.original_url var = DlOutcome.ok) :
    (download_playlist (Except.ok (PlaylistInfo.mk (some es))) odl dp title
        (download_playlist (Except.ok (PlaylistInfo.mk (some es))) odl dp title fs0).1).2
      = (unitsOf es).map (fun _ => DownloadResult.skippedAlreadyDone) ∧
    ((download_playlist (Except.ok (PlaylistInfo.mk (some es))) odl dp title
        (download_playlist (Except.ok (PlaylistInfo.mk (some es))) odl dp title fs0).1).1).files
        (ledgerFile (joinPath dp title))
      = ((download_playlist (Except.ok (PlaylistInfo.mk (some es))) odl dp title fs0).1).files
          (ledgerFile (joinPath dp title)) ∧
    ((download_playlist (Except.ok (PlaylistInfo.mk (some es))) odl dp title
        (download_playlist (Except.ok (PlaylistInfo.mk (some es))) odl dp title fs0).1).2).length
      = 2 * (es.filterMap id).length := by
  have hok' : ∀ u ∈ unitsOf es, odl u.1.original_url u.2 = DlOutcome.ok :=
    fun u hu => hok u.1 (mem_unitsOf_fst hu) u.2
  have hr1 := download_playlist_first_run es odl dp title fs0 h0 hok'
  have hwf' : ∀ i ∈ (unitsOf es).map (fun u => u.1.id),
      '\n' ∉ i ∧ '\r' ∉ i ∧ stripChars i = i := by
    intro i hi
    rcases List.mem_map.mp hi with ⟨u, hu, rfl⟩
    exact hwf u.1 (mem_unitsOf_fst hu)
  have hmk0 : (mkPlaylistDirs fs0 dp title).files (ledgerFile (joinPath dp title)) = none := h0
  have hload2 : load_downloaded_videos
      (recordAll (mkPlaylistDirs fs0 dp title) (joinPath dp title)
        ((unitsOf es).map fun u => u.1.id)) (joinPath dp title)
      = ((unitsOf es).map fun u => u.1.id).toFinset :=
    load_recordAll_fresh _ _ _ hmk0 hwf'
  have hall : ∀ u ∈ unitsOf es,
      u.1.id ∈ ((unitsOf es).map fun u => u.1.id).toFinset :=
    fun u hu => List.mem_toFinset.mpr (List.mem_map_of_mem _ hu)
  have hr2 : download_playlist (Except.ok (PlaylistInfo.mk (some es))) odl dp title
      (recordAll (mkPlaylistDirs fs0 dp title) (joinPath dp title)
        ((unitsOf es).map fun u => u.1.id))
      = (mkPlaylistDirs
          (recordAll (mkPlaylistDirs fs0 dp title) (joinPath dp title)
            ((unitsOf es).map fun u => u.1.id)) dp title,
         (unitsOf es).map fun _ => DownloadResult.skippedAlreadyDone) := by
    rw [download_playlist_ok_eq, hload2]
    exact runUnits_all_skip odl _ _ (unitsOf es) _ hall
  rw [hr1]
  dsimp only
  rw [hr2]
  refine ⟨rfl, rfl, ?_⟩
  rw [List.length_map, unitsOf_length]

/-- Witness for `second_pass_all_skipped` at concrete inputs. -/
theorem second_pass_all_skipped_witness :
    (download_playlist (Except.ok (PlaylistInfo.mk (some
          [some (Video.mk ("x".data) ("T".data) ("u1".data)), none,
            some (Video.mk ("y".data) ("S".data) ("u2".data))])))
        (fun _ _ => DlOutcome.ok) ("d".data) ("t".data)
        (download_playlist (Except.ok (PlaylistInfo.mk (some
            [some (Video.mk ("x".data) ("T".data) ("u1".data)), none,
              some (Video.mk ("y".data) ("S".data) ("u2".data))])))
          (fun _ _ => DlOutcome.ok) ("d".data) ("t".data) emptyFS).1).2
      = (unitsOf [some (Video.mk ("x".data) ("T".data) ("u1".data)), none,
            some (Video.mk ("y".data) ("S".data) ("u2".data))]).map
          (fun _ => DownloadResult.skippedAlreadyDone) ∧
    ((download_playlist (Except.ok (PlaylistInfo.mk (some
          [some (Video.mk ("x".data) ("T".data) ("u1".data)), none,
            some (Video.mk ("y".data) ("S".data) ("u2".data))])))
        (fun _ _ => DlOutcome.ok) ("d".data) ("t".data)
        (download_playlist (Except.ok (PlaylistInfo.mk (some
            [some (Video.mk ("x".data) ("T".data) ("u1".data)), none,
              some (Video.mk ("y".data) ("S".data) ("u2".data))])))
          (fun _ _ => DlOutcome.ok) ("d".data) ("t".data) emptyFS).1).1).files
        (ledgerFile (joinPath ("d".data) ("t".data)))
      = ((download_playlist (Except.ok (PlaylistInfo.mk (some
            [some (Video.mk ("x".data) ("T".data) ("u1".data)), none,
              some (Video.mk ("y".data) ("S".data) ("u2".data))])))
          (fun _ _ => DlOutcome.ok) ("d".data) ("t".data) emptyFS).1).files
          (ledgerFile (joinPath ("d".data) ("t".data))) ∧
    ((download_playlist (Except.ok (PlaylistInfo.mk (some
          [some (Video.mk ("x".data) ("T".data) ("u1".data)), none,
            some (Video.mk ("y".data) ("S".data) ("u2".data))])))
        (fun _ _ => DlOutcome.ok) ("d".data) ("t".data)
        (download_playlist (Except.ok (PlaylistInfo.mk (some
            [some (Video.mk ("x".data) ("T".data) ("u1".data)), none,
              some (Video.mk ("y".data) ("S".data) ("u2".data))])))
          (fun _ _ => DlOutcome.ok) ("d".data) ("t".data) emptyFS).1).2).length
      = 2 * (([some (Video.mk ("x".data) ("T".data) ("u1".data)), none,
            some (Video.mk ("y".data) ("S".data) ("u2".data))]).filterMap id).length :=
  second_pass_all_skipped
    [some (Video.mk ("x".data) ("T".data) ("u1".data)), none,
      some (Video.mk ("y".data) ("S".data) ("u2".data))]
    ("d".data) ("t".data) emptyFS (fun _ _ => DlOutcome.ok) rfl (by decide)
    (fun _ _ _ => rfl)

/-- Claim C7: when the collaborator call of work unit `k` fails (raises
or errors), the `try` block of the playlist pass still returns normally
(the failure is caught inside `download_video`, nothing propagates to
the orchestrator), every submitted work unit — in particular both
variants of every other item — yields a terminal result, and every
result other than the k-th is exactly the one its own snapshot check
and collaborator outcome determine. -/
theorem partial_failure_isolation (odl : DlOracle) (es : List (Option Video))
    (ppath : Str) (snap : Finset Str) (fs : FS) (k : Nat)
    (hk : k < (unitsOf es).length)
    (hfail : odl ((unitsOf es).get ⟨k, hk⟩).1.original_url ((unitsOf es).get ⟨k, hk⟩).2
        ≠ DlOutcome.ok) :
    ∃ fs2 rs, download_playlist_try (Except.ok (PlaylistInfo.mk (some es))) odl ppath snap fs
        = Except.ok (fs2, rs) ∧
      rs.length = (unitsOf es).length ∧
      ∀ j, j ≠ k → rs.get? j = ((unitsOf es).get? j).map (unitResult odl snap) := by
  refine ⟨(runUnits odl ppath snap (unitsOf es) fs).1,
    (runUnits odl ppath snap (unitsOf es) fs).2, rfl, ?_, ?_⟩
  · rw [runUnits_snd]
    exact List.length_map _ _
  · intro j hj
    rw [runUnits_snd, List.get?_map]

/-- Witness for `partial_failure_isolation` at concrete inputs: two
items, the collaborator raises on the first item's URL. -/
theorem partial_failure_isolation_witness :
    ∃ fs2 rs, download_playlist_try
        (Except.ok (PlaylistInfo.mk (some
          [some (Video.mk ("a".data) ("A".data) ("ua".data)),
            some (Video.mk ("b".data) ("B".data) ("ub".data))])))
        (fun u _ => if u = ("ua".data) then DlOutcome.exn else DlOutcome.ok)
        ("pp".data) (∅ : Finset Str) emptyFS
        = Except.ok (fs2, rs) ∧
      rs.length = (unitsOf
          [some (Video.mk ("a".data) ("A".data) ("ua".data)),
            some (Video.mk ("b".data) ("B".data) ("ub".data))]).length ∧
      ∀ j, j ≠ 0 → rs.get? j = ((unitsOf
          [some (Video.mk ("a".data) ("A".data) ("ua".data)),
            some (Video.mk ("b".data) ("B".data) ("ub".data))]).get? j).map
          (unitResult (fun u _ => if u = ("ua".data) then DlOutcome.exn else DlOutcome.ok)
            (∅ : Finset Str)) :=
  partial_failure_isolation
    (fun u _ => if u = ("ua".data) then DlOutcome.exn else DlOutcome.ok)
    [some (Video.mk ("a".data) ("A".data) ("ua".data)),
      some (Video.mk ("b".data) ("B".data) ("ub".data))]
    ("pp".data) (∅ : Finset Str) emptyFS 0 (by decide) (by decide)

/-- Claim C8, counterexample: for the playlist title `"a/b"` the path
component used by `download_playlist` is the raw title; no
filesystem-safe segment (one containing no `'/'`) yields the playlist
path the code builds, so the segment used is not a sanitized form. -/
theorem playlist_dir_unsanitized_cex :
    ¬ ∃ s : Str, ('/' ∉ s) ∧ joinPath ("r".data) ("a/b".data) = joinPath ("r".data) s := by
  rintro ⟨s, hs, heq⟩
  have hhead : ¬ s.head? = some '/' := by
    intro hh
    cases s with
    | nil => exact Option.noConfusion hh
    | cons c cs =>
      have hc : c = '/' := by simpa using hh
      exact hs (hc ▸ List.mem_cons_self c cs)
  have heq2 : (['r', '/', 'a', '/', 'b'] : Str) = ['r'] ++ '/' :: s := by
    calc (['r', '/', 'a', '/', 'b'] : Str) = joinPath ("r".data) ("a/b".data) := by decide
      _ = joinPath ("r".data) s := heq
      _ = ("r".data) ++ '/' :: s := by
          unfold joinPath
          rw [if_neg hhead, if_neg (by decide), if_neg (by decide)]
      _ = ['r'] ++ '/' :: s := by
          have hr : ("r".data : Str) = ['r'] := by decide
          rw [hr]
  have hs' : s = ['a', '/', 'b'] := by
    simpa using heq2.symm
  exact hs (by rw [hs']; decide)

/-- Claim C8 (amended): after the first step of `download_playlist`, for
every playlist and every oracle behaviour, the directories
`downloadRoot/title/video` and `downloadRoot/title/audio` exist — with
the raw, unsanitized title as the path component. -/
theorem playlist_dirs_created (lo : Except PyExn PlaylistInfo) (odl : DlOracle)
    (dp title : Str) (fs : FS) :
    joinPath (joinPath dp title) ("video".data)
        ∈ ((download_playlist lo odl dp title fs).1).dirs ∧
    joinPath (joinPath dp title) ("audio".data)
        ∈ ((download_playlist lo odl dp title fs).1).dirs := by
  have hdirs : ((download_playlist lo odl dp title fs).1).dirs
      = (mkPlaylistDirs fs dp title).dirs := by
    cases lo with
    | error e => rfl
    | ok info =>
      cases info with
      | mk ents =>
        cases ents with
        | none => rfl
        | some es => exact runUnits_dirs odl _ _ (unitsOf es) _
  constructor
  · rw [hdirs]
    exact List.mem_cons_of_mem _ (List.mem_cons_self _ _)
  · rw [hdirs]
    exact List.mem_cons_self _ _

/-- Claim C9: a listing with N non-null items produces exactly 2N work
units — one per (item, variant) pair, each pair occurring exactly as
often as the item occurs in the listing — and the pass collects a
result for every one of the 2N submitted units. -/
theorem units_shape (es : List (Option Video)) (odl : DlOracle) (ppath : Str)
    (snap : Finset Str) (fs : FS) :
    (unitsOf es).length = 2 * (es.filterMap id).length ∧
    (∀ v : Video,
      (unitsOf es).count (v, Variant.video) = (es.filterMap id).count v ∧
      (unitsOf es).count (v, Variant.audio) = (es.filterMap id).count v) ∧
    ((runUnits odl ppath snap (unitsOf es) fs).2).length = (unitsOf es).length := by
  refine ⟨unitsOf_length es, ?_, ?_⟩
  · intro v
    have hcnt : ∀ (l : List Video) (w : Video) (var : Variant),
        (l.map (fun t => (t, var))).count (w, var) = l.count w := by
      intro l w var
      induction l with
      | nil => rfl
      | cons b l ih => simp [List.count_cons, ih, Prod.ext_iff]
    have hzv : ((es.filterMap id).map (fun w => (w, Variant.audio))).count
        (v, Variant.video) = 0 := by
      rw [List.count_eq_zero]
      intro hmem
      rcases List.mem_map.mp hmem with ⟨w, _, hw⟩
      exact Variant.noConfusion (congrArg Prod.snd hw)
    have hza : ((es.filterMap id).map (fun w => (w, Variant.video))).count
        (v, Variant.audio) = 0 := by
      rw [List.count_eq_zero]
      intro hmem
      rcases List.mem_map.mp hmem with ⟨w, _, hw⟩
      exact Variant.noConfusion (congrArg Prod.snd hw)
    constructor
    · rw [unitsOf, List.count_append, hzv]
      simpa using hcnt (es.filterMap id) v Variant.video
    · rw [unitsOf, List.count_append, hza]
      simpa using hcnt (es.filterMap id) v Variant.audio
  · rw [runUnits_snd]
    exact List.length_map _ _

/-- Claim C10, counterexample: the id `" a"` is recorded as done under
the shared playlist path, yet processing a same-titled playlist whose
item has that very id attempts both variants again instead of skipping
(the stripped ledger line `"a"` does not match the raw id `" a"`). -/
theorem title_collision_not_skipped_cex :
    (download_playlist
        (Except.ok (PlaylistInfo.mk (some [some (Video.mk (" a".data) ("T".data) ("u".data))])))
        (fun _ _ => DlOutcome.ok) ("d".data) ("t".data)
        (save_downloaded_video emptyFS (joinPath ("d".data) ("t".data)) (" a".data))).2
      ≠ [DownloadResult.skippedAlreadyDone, DownloadResult.skippedAlreadyDone] := by decide

/-- Claim C10 (amended): the playlist directory and ledger file paths
are computed from the raw title only, so two distinct playlists (equal
titles, different urls) under the same download root share both; and an
item id — containing no LF or CR and no surrounding Python
whitespace — recorded as done while processing the first playlist makes
every work unit for a same-id item of the second playlist take the
snapshot-hit branch. -/
theorem title_collision_shared_ledger (dp : Str) (pl1 pl2 : PlaylistEntry)
    (hT : pl1.title = pl2.title) (hU : pl1.url ≠ pl2.url)
    (fs0 : FS) (vid : Str) (hnl : '\n' ∉ vid) (hcr : '\r' ∉ vid)
    (hst : stripChars vid = vid)
    (h0 : fs0.files (ledgerFile (joinPath dp pl1.title)) = none)
    (odl : DlOracle) (es : List (Option Video)) (v : Video) (hv : v.id = vid) :
    joinPath dp pl1.title = joinPath dp pl2.title ∧
    ledgerFile (joinPath dp pl1.title) = ledgerFile (joinPath dp pl2.title) ∧
    (download_playlist (Except.ok (PlaylistInfo.mk (some es))) odl dp pl2.title
        (save_downloaded_video fs0 (joinPath dp pl1.title) vid)).2
      = (unitsOf es).map (unitResult odl
          (load_downloaded_videos (save_downloaded_video fs0 (joinPath dp pl1.title) vid)
            (joinPath dp pl2.title))) ∧
    (∀ var : Variant,
      unitResult odl
        (load_downloaded_videos (save_downloaded_video fs0 (joinPath dp pl1.title) vid)
          (joinPath dp pl2.title)) (v, var) = DownloadResult.skippedAlreadyDone) := by
  rw [← hT]
  refine ⟨rfl, rfl, ?_, ?_⟩
  · rw [download_playlist_ok_eq]
    exact runUnits_snd odl _ _ (unitsOf es) _
  · intro var
    have hfile : (save_downloaded_video fs0 (joinPath dp pl1.title) vid).files
        (ledgerFile (joinPath dp pl1.title)) = some (lineBlock [vid]) := by
      rw [save_files_at, h0]
      rfl
    have hmem : v.id ∈ load_downloaded_videos
        (save_downloaded_video fs0 (joinPath dp pl1.title) vid) (joinPath dp pl1.title) := by
      rw [load_of_some _ _ _ hfile,
        pythonLines_lineBlock [vid] (by
          intro i hi
          rcases List.mem_singleton.mp hi with rfl
          exact ⟨hnl, hcr⟩)]
      simp [hst, hv]
    simp [unitResult, hmem]

/-- Witness for `title_collision_shared_ledger` at concrete inputs. -/
theorem title_collision_shared_ledger_witness :
    joinPath ("d".data) (PlaylistEntry.mk ("u1".data) ("t".data) ("url".data)).title
      = joinPath ("d".data) (PlaylistEntry.mk ("u2".data) ("t".data) ("url".data)).title ∧
    ledgerFile (joinPath ("d".data) (PlaylistEntry.mk ("u1".data) ("t".data) ("url".data)).title)
      = ledgerFile (joinPath ("d".data)
          (PlaylistEntry.mk ("u2".data) ("t".data) ("url".data)).title) ∧
    (download_playlist
        (Except.ok (PlaylistInfo.mk (some [some (Video.mk ("x".data) ("T".data) ("u".data))])))
        (fun _ _ => DlOutcome.ok) ("d".data)
        (PlaylistEntry.mk ("u2".data) ("t".data) ("url".data)).title
        (save_downloaded_video emptyFS
          (joinPath ("d".data) (PlaylistEntry.mk ("u1".data) ("t".data) ("url".data)).title)
          ("x".data))).2
      = (unitsOf [some (Video.mk ("x".data) ("T".data) ("u".data))]).map
          (unitResult (fun _ _ => DlOutcome.ok)
            (load_downloaded_videos
              (save_downloaded_video emptyFS
                (joinPath ("d".data)
                  (PlaylistEntry.mk ("u1".data) ("t".data) ("url".data)).title)
                ("x".data))
              (joinPath ("d".data)
                (PlaylistEntry.mk ("u2".data) ("t".data) ("url".data)).title))) ∧
    (∀ var : Variant,
      unitResult (fun _ _ => DlOutcome.ok)
        (load_downloaded_videos
          (save_downloaded_video emptyFS
            (joinPath ("d".data) (PlaylistEntry.mk ("u1".data) ("t".data) ("url".data)).title)
            ("x".data))
          (joinPath ("d".data) (PlaylistEntry.mk ("u2".data) ("t".data) ("url".data)).title))
        (Video.mk ("x".data) ("T".data) ("u".data), var)
        = DownloadResult.skippedAlreadyDone) :=
  title_collision_shared_ledger ("d".data)
    (PlaylistEntry.mk ("u1".data) ("t".data) ("url".data))
    (PlaylistEntry.mk ("u2".data) ("t".data) ("url".data))
    rfl (by decide) emptyFS ("x".data) (by decide) (by decide) (by decide) rfl
    (fun _ _ => DlOutcome.ok) [some (Video.mk ("x".data) ("T".data) ("u".data))]
    (Video.mk ("x".data) ("T".data) ("u".data)) rfl
